import Mathlib

/-
  Verification of the DFRot weight-rotation / layer-norm-fusion toolkit
  (src/utils/model_utils.py and src/utils/rotation_utils.py) against its
  natural-language specification.

  The Python code is shallowly embedded: float tensors become exact-rational
  vectors/matrices (double-precision casts are identities), torch modules
  become records, Python exceptions become an `Err` sum returned through
  `Except`/`Option`, and external dependencies (torch QR, the Hadamard
  kernel, the activation quantizer, the transformers decoder layer) become
  explicit parameters constrained only by their documented contracts.
-/

open Matrix

set_option maxRecDepth 10000

namespace DFRot

/-- Failure kinds of the Python code: ValueError for unknown models or modes,
assertion failures for missing data, double installation and violated
preconditions, and other torch runtime failures. -/
inductive Err where
  | unsupportedModel
  | invalidConfiguration
  | missingData
  | alreadyConfigured
  | badPrecondition
  | runtimeFailure
deriving DecidableEq, Repr

/-- The three supported architecture families
(model_utils.py lines 12-17: LLAMA_MODEL, MISTRAL_MODEL, QW_MODEL). -/
inductive ModelType where
  | llama
  | mistral
  | qwen
deriving DecidableEq, Repr

/-- A vector of weights; an exact-rational stand-in for a 1-D float tensor. -/
abbrev Vec := List ℚ

/-- A weight matrix, stored as its list of rows, torch-style
(out_features rows of in_features entries). -/
abbrev Mat := List Vec

/-- A normalization module as fuse_ln_linear sees it: a scale weight and,
only for LayerNorm-style modules, a bias. Python `hasattr(layernorm, 'bias')`
is `bias.isSome` here (the RMSNorm modules of all three families have no
bias attribute). -/
structure NormModule where
  weight : Vec
  bias : Option Vec
deriving DecidableEq, Repr

/-- A torch.nn.Linear as the fusion code sees it: a weight matrix, an
optional bias, and the out_features count used when a zero bias has to be
created. -/
structure LinearModule where
  weight : Mat
  bias : Option Vec
  out_features : ℕ
deriving DecidableEq, Repr

/-- One transformer decoder layer: attention projections, MLP projections and
the two normalization modules (spec section 3, "TransformerLayer"). -/
structure TransformerLayer where
  input_layernorm : NormModule
  post_attention_layernorm : NormModule
  q_proj : LinearModule
  k_proj : LinearModule
  v_proj : LinearModule
  o_proj : LinearModule
  up_proj : LinearModule
  gate_proj : LinearModule
  down_proj : LinearModule
deriving DecidableEq, Repr

/-- A pretrained model instance. The three Booleans record the facts Python
`isinstance` checks can observe (an object may in principle be an instance of
several of the classes through subclassing, so the flags are independent);
the remaining fields are the attribute paths the fusion code touches
(model.model.layers, model.model.norm, model.lm_head). -/
structure PyModel where
  isLlama : Bool
  isMistral : Bool
  isQwen : Bool
  layers : List TransformerLayer
  norm : NormModule
  lm_head : LinearModule
deriving DecidableEq, Repr

/-- model_utils.model_type_extractor (lines 20-28): isinstance chain over the
three supported classes, ValueError otherwise. -/
def model_type_extractor (m : PyModel) : Except Err ModelType :=
  if m.isLlama then .ok .llama
  else if m.isMistral then .ok .mistral
  else if m.isQwen then .ok .qwen
  else .error .unsupportedModel

/-- model_utils.get_model_type (lines 116-125): the same isinstance chain as
model_type_extractor, written with an assignment instead of early returns. -/
def get_model_type (m : PyModel) : Except Err ModelType :=
  if m.isLlama then .ok .llama
  else if m.isMistral then .ok .mistral
  else if m.isQwen then .ok .qwen
  else .error .unsupportedModel

/-- torch broadcast `W_ * layernorm.weight` for a 2-D W and 1-D scale: every
row of W is multiplied entrywise by the scale, i.e. column j of W is scaled
by scale j. -/
def scaleCols (W : Mat) (s : Vec) : Mat :=
  W.map (fun row => List.zipWith (· * ·) row s)

/-- torch.matmul of a 2-D matrix and a 1-D vector. -/
def matVec (W : Mat) (v : Vec) : Vec :=
  W.map (fun row => (List.zipWith (· * ·) row v).sum)

/-- rotation_utils.fuse_ln_linear (lines 22-37), restricted to one linear
layer of the iterable: the weight is multiplied by the norm scale (computed
in double precision and cast back, which is the identity in exact
arithmetic); if the norm has a bias it is folded through the OLD weight into
the linear bias, creating a zero bias of length out_features first when the
linear has none. -/
def fuse_ln_linear_one (layernorm : NormModule) (linear : LinearModule) : LinearModule :=
  let W_ := linear.weight
  let fused := { linear with weight := scaleCols W_ layernorm.weight }
  match layernorm.bias with
  | none => fused
  | some nb =>
      let b0 := fused.bias.getD (List.replicate linear.out_features 0)
      { fused with bias := some (List.zipWith (· + ·) b0 (matVec W_ nb)) }

/-- rotation_utils.fuse_ln_linear over the whole iterable of linear layers. -/
def fuse_ln_linear (layernorm : NormModule) (linears : List LinearModule) : List LinearModule :=
  linears.map (fuse_ln_linear_one layernorm)

/-- torch.ones_like for a 1-D tensor. -/
def ones_like (v : Vec) : Vec := v.map (fun _ => 1)

/-- The per-layer body of rotation_utils.fuse_layer_norms (lines 64-83):
every supported family takes the same branch; the post-attention norm is
fused into up_proj and gate_proj, the input norm into q_proj, k_proj and
v_proj, and both norm scales are then reset to all-ones. -/
def fuse_layer_norms_layer (layer : TransformerLayer) : TransformerLayer :=
  { layer with
    up_proj := fuse_ln_linear_one layer.post_attention_layernorm layer.up_proj
    gate_proj := fuse_ln_linear_one layer.post_attention_layernorm layer.gate_proj
    q_proj := fuse_ln_linear_one layer.input_layernorm layer.q_proj
    k_proj := fuse_ln_linear_one layer.input_layernorm layer.k_proj
    v_proj := fuse_ln_linear_one layer.input_layernorm layer.v_proj
    post_attention_layernorm :=
      { layer.post_attention_layernorm with
        weight := ones_like layer.post_attention_layernorm.weight }
    input_layernorm :=
      { layer.input_layernorm with
        weight := ones_like layer.input_layernorm.weight } }

/-- rotation_utils.fuse_layer_norms (lines 56-92): classify the model (which
raises for unsupported instances), fuse both norms of every layer and reset
their scales, then fuse the final norm into the head and reset it. -/
def fuse_layer_norms (model : PyModel) : Except Err PyModel := do
  let _model_type ← get_model_type model
  let layers := model.layers.map fuse_layer_norms_layer
  let lm_head := fuse_ln_linear_one model.norm model.lm_head
  let norm := { model.norm with weight := ones_like model.norm.weight }
  return { model with layers := layers, lm_head := lm_head, norm := norm }

/-- Python str(n) zero-padded by the format spec {:03d}: the decimal digits,
left-padded with zeros to a minimum width of 3 (model_utils.py line 216). -/
def format03 (n : ℕ) : String :=
  let s := toString n
  if s.length < 3 then String.mk (List.replicate (3 - s.length) '0') ++ s else s

/-- Spec-side rendering of a 3-digit zero-padded index, written independently
of the Lean toString: the hundreds, tens and units digits as characters. -/
def threeDigits (n : ℕ) : String :=
  String.mk [Char.ofNat (48 + n / 100 % 10), Char.ofNat (48 + n / 10 % 10),
    Char.ofNat (48 + n % 10)]

/-- Python str.startswith, computed on the character lists. -/
def strStartsWith (s p : String) : Bool := p.data.isPrefixOf s.data

/-- Python str.endswith, computed on the character lists. -/
def strEndsWith (s p : String) : Bool := p.data.reverse.isPrefixOf s.data.reverse

/-- posixpath.join of two components: an absolute second component replaces
the first; otherwise a separator is inserted unless the first component is
empty or already ends with one. -/
def ospath_join2 (a b : String) : String :=
  if strStartsWith b "/" then b
  else if a = "" ∨ strEndsWith a "/" then a ++ b
  else a ++ "/" ++ b

/-- The attributes of `args` that get_layer_io_save_path reads. -/
structure SaveArgs where
  save_path : String
  layer_idx : ℕ
deriving DecidableEq, Repr

/-- model_utils.get_layer_io_save_path (lines 215-216):
os.path.join(args.save_path, 'layer_io', f string of layer_idx as {:03d}
followed by '.pt'). -/
def get_layer_io_save_path (args : SaveArgs) : String :=
  ospath_join2 (ospath_join2 args.save_path "layer_io") (format03 args.layer_idx ++ ".pt")

/-- A torch module as the online-rotation code sees it: its weight (an
out-features by in-features matrix whose dtype/device the buffer is cast to;
the cast is the identity in exact arithmetic), the optional registered
buffer named Q (so Python `hasattr(module, 'Q')` is `Q.isSome`), and whether
the pre-forward hook handle has been stored. -/
structure TorchModule (m n : ℕ) where
  weight : Matrix (Fin m) (Fin n) ℚ
  Q : Option (Matrix (Fin n) (Fin n) ℚ)
  rotate_handle : Bool

/-- torch.nn.functional.linear without bias: F.linear(x, A) computes x
times the transpose of A. -/
def F_linear {b n k : ℕ} (x : Matrix (Fin b) (Fin n) ℚ)
    (A : Matrix (Fin k) (Fin n) ℚ) : Matrix (Fin b) (Fin k) ℚ :=
  x * Aᵀ

/-- rotation_utils.online_rotate (lines 272-275): the pre-forward hook
replaces the first positional input by F.linear of it with the registered
buffer module.Q and passes the remaining positional inputs through. The
input tuple is modelled as (first tensor, remaining arguments); reading the
buffer of a module that has none is an attribute error, hence none. -/
def online_rotate {b n k : ℕ} {β : Type} (module : TorchModule k n)
    (inp : Matrix (Fin b) (Fin n) ℚ × List β) :
    Option (Matrix (Fin b) (Fin n) ℚ × List β) :=
  match module.Q with
  | some Qbuf => some (F_linear inp.1 Qbuf, inp.2)
  | none => none

/-- rotation_utils.register_online_rotation (lines 278-284): asserts the
module has no Q attribute yet, registers the transpose of Q as the buffer
(cast to the module weight's dtype/device, the identity here) and stores
the pre-forward hook handle. -/
def register_online_rotation {m n : ℕ} (module : TorchModule m n)
    (Q : Matrix (Fin n) (Fin n) ℚ) : Except Err (TorchModule m n) :=
  if module.Q.isSome then .error .alreadyConfigured
  else .ok { module with Q := some Qᵀ, rotate_handle := true }

/-- The attribute namespace of a torch module, as seen by Python hasattr /
setattr for the dynamically named QK-wrapper attributes. -/
structure AttrModule where
  attrs : List String
deriving DecidableEq, Repr

/-- rotation_utils.add_qk_rotation_wrapper_after_function_call_in_forward
(lines 337-348), at the attribute level: the wrapper is recorded under the
attribute name function_name followed by "_qk_rotation_wrapper"; the
function asserts that attribute does not exist yet, then (through the
external monkeypatch utility) installs the wrapper and setattr-s it. -/
def add_qk_rotation_wrapper_after_function_call_in_forward
    (module : AttrModule) (function_name : String) : Except Err AttrModule :=
  let attr_name := function_name ++ "_qk_rotation_wrapper"
  if attr_name ∈ module.attrs then .error .alreadyConfigured
  else .ok ⟨attr_name :: module.attrs⟩

/-- torch.sign on an exact rational scalar: 1, -1 or 0. -/
def torchSign (x : ℚ) : ℚ :=
  if 0 < x then 1 else if x < 0 then -1 else 0

/-- rotation_utils.random_orthogonal_matrix (lines 95-112), modelled on the
output pair (q, r) of the external torch.linalg.qr applied to the random
standard-normal draw: `q *= torch.sign(torch.diag(r)).unsqueeze(0)` scales
column j of q by the sign of the j-th diagonal entry of r. -/
def random_orthogonal_matrix {n : ℕ} (q r : Matrix (Fin n) (Fin n) ℚ) :
    Matrix (Fin n) (Fin n) ℚ :=
  Matrix.of fun i j => q i j * torchSign (r j j)

/-- The external inputs of get_orthogonal_matrix, abstracted: the (q, r)
pair torch.linalg.qr returns for the random draw, the external random
Hadamard matrix, the external Householder builders (for a given index list,
and for one randomly drawn index), the randomly drawn index, and the
caller-supplied kwargs entry `indices` (a list of outlier channels for
householder mode, or a precomputed matrix for orthogonal_procrustes mode). -/
structure OrthoExternals (n : ℕ) where
  qr_q : Matrix (Fin n) (Fin n) ℚ
  qr_r : Matrix (Fin n) (Fin n) ℚ
  hadamardMat : Matrix (Fin n) (Fin n) ℚ
  householderFromList : List ℕ → Matrix (Fin n) (Fin n) ℚ
  householderAt : ℕ → Matrix (Fin n) (Fin n) ℚ
  randIdx : ℕ
  indices : Option (List ℕ ⊕ Matrix (Fin n) (Fin n) ℚ)

/-- rotation_utils.get_orthogonal_matrix (lines 124-140): the mode dispatch.
The random branch post-processes the external QR output; hadamard and the
householder variants delegate to external generators; householder asserts
the kwargs entry is a list, orthogonal_procrustes asserts it is present and
passes the supplied matrix through; any other mode is a ValueError. -/
def get_orthogonal_matrix {n : ℕ} (mode : String) (ext : OrthoExternals n) :
    Except Err (Matrix (Fin n) (Fin n) ℚ) :=
  if mode = "random" then .ok (random_orthogonal_matrix ext.qr_q ext.qr_r)
  else if mode = "hadamard" then .ok ext.hadamardMat
  else if mode = "householder" then
    match ext.indices with
    | some (.inl idxs) => .ok (ext.householderFromList idxs)
    | _ => .error .missingData
  else if mode = "hadamard_householder" then
    .ok (ext.hadamardMat * ext.householderAt ext.randIdx)
  else if mode = "orthogonal_procrustes" then
    match ext.indices with
    | some (.inr M) => .ok M
    | some (.inl _) => .error .missingData
    | none => .error .missingData
  else .error .invalidConfiguration

/-- A torch tensor in row-major (contiguous) form: its shape and its flat
data. Exact rationals stand in for the float entries. -/
structure Tensor where
  shape : List ℕ
  data : List ℚ
deriving DecidableEq, Repr

/-- Number of elements, the product of the shape. -/
def Tensor.numel (t : Tensor) : ℕ := t.shape.prod

/-- torch reshape to a fully specified shape: allowed exactly when the
element counts agree, and on a contiguous tensor it reinterprets the same
flat data. -/
def Tensor.reshape (t : Tensor) (s : List ℕ) : Option Tensor :=
  if s.prod = t.numel then some ⟨s, t.data⟩ else none

/-- torch reshape to (-1, m): the leading dimension is inferred, which
requires m to be a nonzero divisor of the element count. -/
def Tensor.reshapeNeg1 (t : Tensor) (m : ℕ) : Option Tensor :=
  if m ≠ 0 ∧ t.numel % m = 0 then some ⟨[t.numel / m, m], t.data⟩ else none

/-- torch transpose(1, 2) of a 4-D tensor, materialized (the Python code
always reshapes the transposed tensor next, which copies): entry
(i0, i2, i1, i3) of the result is entry (i0, i1, i2, i3) of the input. -/
def Tensor.transpose12 (t : Tensor) : Option Tensor :=
  match t.shape with
  | [a, b, c, d] =>
      some ⟨[a, c, b, d],
        (List.range (a * c * b * d)).map (fun x =>
          let i3 := x % d
          let i1 := x / d % b
          let i2 := x / (d * b) % c
          let i0 := x / (d * b * c)
          t.data.getD (((i0 * b + i1) * c + i2) * d + i3) 0)⟩
  | _ => none

/-- hadamard_utils.is_pow2, an external power-of-two check on a positive
integer (spec section 6). -/
def is_pow2 (n : ℕ) : Bool := 0 < n ∧ n &&& (n - 1) = 0

/-- The configuration state of the external quant_utils.ActQuantizer, as set
by its configure call (spec section 6: configure(bits, groupsize, symmetric,
clip ratio)). The numeric quantization action itself is external and enters
the embedding as an explicit function parameter. -/
structure ActQuantizer where
  bits : ℤ
  groupsize : ℤ
  sym : Bool
  clip : ℚ
deriving DecidableEq, Repr

/-- The model config fields QKRotationWrapper reads. -/
structure QKConfig where
  num_attention_heads : ℕ
  hidden_size : ℕ
deriving DecidableEq, Repr

/-- The keyword arguments of QKRotationWrapper.__init__; Python reads all of
them unconditionally (the kwargs dict of the call site always carries
them), clip standing for the clip-ratio entry. -/
structure QKKwargs where
  disable_qk_rotation : Bool
  k_bits : ℤ
  k_groupsize : ℤ
  k_sym : Bool
  k_clip : ℚ
deriving DecidableEq, Repr

/-- The state of rotation_utils.QKRotationWrapper after __init__. -/
structure QKRotationWrapper where
  config : QKConfig
  head_dim : ℕ
  func_kept : Bool
  k_quantizer : ActQuantizer
  k_bits : ℤ
  disable_qk_rotation : Bool
  k_groupsize : ℤ
  k_sym : Bool
  k_clip : ℚ
deriving DecidableEq, Repr

/-- QKRotationWrapper.__init__ (rotation_utils.py lines 289-311): head_dim is
hidden_size integer-divided by the head count and must be a power of two;
the caller's k_groupsize must be -1 or head_dim; the internal quantizer is
configured with the caller's bits, symmetry and clip ratio but with
groupsize fixed to -1 (the comment: head-wise quantization is handled by the
wrapper itself through reshaping). `func_kept` records that the wrapped
function was stored. -/
def QKRotationWrapper.init (config : QKConfig) (kwargs : QKKwargs) :
    Except Err QKRotationWrapper :=
  let num_heads := config.num_attention_heads
  let model_dim := config.hidden_size
  let head_dim := model_dim / num_heads
  if ¬ is_pow2 head_dim then .error .badPrecondition
  else if ¬ (kwargs.k_groupsize = -1 ∨ kwargs.k_groupsize = (head_dim : ℤ)) then
    .error .badPrecondition
  else
    .ok { config := config
          head_dim := head_dim
          func_kept := true
          k_quantizer :=
            { bits := kwargs.k_bits, groupsize := -1,
              sym := kwargs.k_sym, clip := kwargs.k_clip }
          k_bits := kwargs.k_bits
          disable_qk_rotation := kwargs.disable_qk_rotation
          k_groupsize := kwargs.k_groupsize
          k_sym := kwargs.k_sym
          k_clip := kwargs.k_clip }

/-- QKRotationWrapper.forward (rotation_utils.py lines 313-334). External
pieces enter as parameters: `hadamard` is the fast Hadamard transform
already scaled by one over the square root of the last dimension, and
`quantize` is the action of the externally calibrated quantizer (find_params
runs immediately before it on the very tensor being quantized and free
immediately after, so per-call calibration is a single function
application). The wrapped func's outputs q and k are the arguments; dtype
casts are identities in exact arithmetic. The assert on q's last dimension
and the 4-way unpacking of k.shape are modelled as option guards. -/
def QKRotationWrapper.forward (w : QKRotationWrapper)
    (hadamard : Tensor → Tensor) (quantize : Tensor → Tensor)
    (q k : Tensor) : Option (Tensor × Tensor) :=
  if q.shape.getLast? = some w.head_dim then
    let q1 := if ¬ w.disable_qk_rotation then hadamard q else q
    let k1 := if ¬ w.disable_qk_rotation then hadamard k else k
    match k1.shape with
    | [bsz, num_heads, seq_len, head_dim] =>
        if w.k_bits < 16 then
          if w.k_groupsize = -1 then
            (k1.transpose12.bind fun kt =>
              (kt.reshapeNeg1 w.config.hidden_size).bind fun token_wise_k =>
                ((quantize token_wise_k).reshape
                    [bsz, seq_len, num_heads, head_dim]).bind fun kr =>
                  kr.transpose12.map fun k2 => (q1, k2))
          else
            ((k1.reshapeNeg1 head_dim).bind fun per_head_k =>
              ((quantize per_head_k).reshape
                  [bsz, num_heads, seq_len, head_dim]).map fun k2 => (q1, k2))
        else some (q1, k1)
    | _ => none
  else none

/-- Slicing layer_input[i : i + 1] of a tensor along dimension 0: shape
(1, rest), data the i-th contiguous chunk. (The capture loop only uses
indices below the leading dimension.) The device move `.to(DEV)` is the
identity here. -/
def Tensor.slice0 (t : Tensor) (i : ℕ) : Tensor :=
  match t.shape with
  | _n :: rest => ⟨1 :: rest, (t.data.drop (i * rest.prod)).take rest.prod⟩
  | [] => t

/-- torch.cat along dimension 0: fails on an empty list or when the trailing
shapes disagree; otherwise the leading dimensions add and the flat data
concatenates. -/
def catDim0 : List Tensor → Option Tensor
  | [] => none
  | t :: ts =>
      match t.shape with
      | [] => none
      | n0 :: tail =>
          if ts.all (fun u => u.shape.drop 1 = tail && u.shape ≠ []) then
            some ⟨(n0 + (ts.map (fun u => u.shape.headD 0)).sum) :: tail,
              t.data ++ (ts.map Tensor.data).flatten⟩
          else none

/-- Observable behavior of one forward pass of the external Llama decoder
layer, as seen by the five capture hooks of model_utils.capture_layer_io:
for a given layer input, the first positional input tensor received by each
of k_proj, o_proj, gate_proj, down_proj and the output tensor produced by
v_proj (each of those sublayers fires its hook exactly once per layer
forward; detach and cpu moves are identities here). -/
structure LayerTrace where
  kIn : Tensor
  oIn : Tensor
  gateIn : Tensor
  downIn : Tensor
  vOut : Tensor
deriving DecidableEq, Repr

/-- The record capture returns: the captured inputs and outputs as
association lists from sublayer name to concatenated tensor, so that the
key sets are observable. -/
structure CaptureResult where
  input : List (String × Tensor)
  output : List (String × Tensor)
deriving DecidableEq, Repr

/-- model_utils.capture_layer_io (lines 219-273): only the Llama family is
implemented (ValueError otherwise); hooks capture the inputs of k_proj,
o_proj, gate_proj, down_proj and the output of v_proj; the batch is
replayed one sequence slice at a time, and the per-sequence captures are
concatenated along dimension 0 per sublayer. A torch.cat failure (empty
batch or mismatched shapes) is a torch runtime error. -/
def capture_layer_data (mt : ModelType) (layerRun : Tensor → LayerTrace)
    (layer_input : Tensor) : Except Err CaptureResult :=
  match mt with
  | .llama =>
      let n := layer_input.shape.headD 0
      let traces := (List.range n).map (fun i => layerRun (layer_input.slice0 i))
      match catDim0 (traces.map LayerTrace.kIn), catDim0 (traces.map LayerTrace.oIn),
          catDim0 (traces.map LayerTrace.gateIn), catDim0 (traces.map LayerTrace.downIn),
          catDim0 (traces.map LayerTrace.vOut) with
      | some kt, some ot, some gt, some dt, some vt =>
          .ok ⟨[("k_proj", kt), ("o_proj", ot), ("gate_proj", gt), ("down_proj", dt)],
            [("v_proj", vt)]⟩
      | _, _, _, _, _ => .error .runtimeFailure
  | _ => .error .unsupportedModel

/-- A torch module hierarchy as model_utils.replace_modules walks it: whether
this module is an instance of type_to_replace, and its named children in
registration order. -/
inductive PyModule where
  | mk (isMatch : Bool) (children : List (String × PyModule))

/-- Whether the module is an instance of the type being replaced. -/
def PyModule.matchesType : PyModule → Bool
  | .mk b _ => b

/-- The module's named children. -/
def PyModule.children : PyModule → List (String × PyModule)
  | .mk _ cs => cs

/-- One replacement decision of model_utils.replace_modules for a matching
child: when replace_layers is true the factory receives the module and the
integer parsed from the child's attribute name (Python int(name), a runtime
error when the name is not numeric, hence the Option), otherwise the module
alone; the factory is modelled as one function over an optional index. -/
def factoryCall (factory : PyModule → Option ℕ → PyModule)
    (replace_layers : Bool) (name : String) (m : PyModule) : Option PyModule :=
  if replace_layers then (name.toNat?).map (fun i => factory m (some i))
  else some (factory m none)

mutual

/-- model_utils.replace_modules (lines 188-212): for every named child, a
matching child is replaced by the factory's result (no recursion into it); a
non-matching child with children is processed recursively; a childless
non-matching child is left alone. -/
def replace_modules (factory : PyModule → Option ℕ → PyModule)
    (replace_layers : Bool) : PyModule → Option PyModule
  | .mk b cs => (replaceChildrenList factory replace_layers cs).map (PyModule.mk b)

/-- The loop body of replace_modules over the named-children list. -/
def replaceChildrenList (factory : PyModule → Option ℕ → PyModule)
    (replace_layers : Bool) : List (String × PyModule) → Option (List (String × PyModule))
  | [] => some []
  | (name, m) :: rest =>
      (if m.matchesType then factoryCall factory replace_layers name m
       else if m.children.length > 0 then replace_modules factory replace_layers m
       else some m).bind fun nm =>
        (replaceChildrenList factory replace_layers rest).map fun rest2 =>
          (name, nm) :: rest2

end

mutual

/-- Specification-level substitution, written from the spec's words: every
matching child is replaced by the factory's result exactly once and its
former children are never descended into, while every non-matching child is
processed recursively (with no special case for childless modules). -/
def replaceModulesSpec (factory : PyModule → Option ℕ → PyModule)
    (replace_layers : Bool) : PyModule → Option PyModule
  | .mk b cs => (replaceChildrenListSpec factory replace_layers cs).map (PyModule.mk b)

/-- The per-child case split of the specification-level substitution. -/
def replaceChildrenListSpec (factory : PyModule → Option ℕ → PyModule)
    (replace_layers : Bool) : List (String × PyModule) → Option (List (String × PyModule))
  | [] => some []
  | (name, m) :: rest =>
      (if m.matchesType then factoryCall factory replace_layers name m
       else replaceModulesSpec factory replace_layers m).bind fun nm =>
        (replaceChildrenListSpec factory replace_layers rest).map fun rest2 =>
          (name, nm) :: rest2

end

/-- What the spec promises fuse_layer_norms does to one layer: the
post-attention-norm scale is folded (column-wise) into up_proj and
gate_proj, the pre-attention norm scale into q_proj, k_proj and v_proj, and
both fused norms end up with an all-ones scale vector. -/
def foldedLayer (L L2 : TransformerLayer) : Prop :=
  L2.up_proj.weight = scaleCols L.up_proj.weight L.post_attention_layernorm.weight ∧
  L2.gate_proj.weight = scaleCols L.gate_proj.weight L.post_attention_layernorm.weight ∧
  L2.q_proj.weight = scaleCols L.q_proj.weight L.input_layernorm.weight ∧
  L2.k_proj.weight = scaleCols L.k_proj.weight L.input_layernorm.weight ∧
  L2.v_proj.weight = scaleCols L.v_proj.weight L.input_layernorm.weight ∧
  (∀ x ∈ L2.post_attention_layernorm.weight, x = 1) ∧
  (∀ x ∈ L2.input_layernorm.weight, x = 1)

/-- What the spec promises fuse_layer_norms does to the whole model: every
layer is folded as in foldedLayer, the final norm's scale is folded into the
head, and the final norm's scale vector becomes all-ones. -/
def C2Post (m m2 : PyModel) : Prop :=
  m2.layers.length = m.layers.length ∧
  (∀ (i : ℕ) (hi : i < m.layers.length) (hi2 : i < m2.layers.length),
    foldedLayer (m.layers.get ⟨i, hi⟩) (m2.layers.get ⟨i, hi2⟩)) ∧
  m2.lm_head.weight = scaleCols m.lm_head.weight m.norm.weight ∧
  (∀ x ∈ m2.norm.weight, x = 1)

/-- A tiny concrete supported (Llama-family) model used to witness the
layer-norm fusion claim: one layer, hidden size 2, all projections 1 by 2. -/
def fuseWitnessModel : PyModel :=
  let lin : LinearModule := { weight := [[1, 2]], bias := none, out_features := 1 }
  { isLlama := true
    isMistral := false
    isQwen := false
    layers := [{ input_layernorm := { weight := [2, 3], bias := none }
                 post_attention_layernorm := { weight := [5, 7], bias := none }
                 q_proj := lin, k_proj := lin, v_proj := lin, o_proj := lin
                 up_proj := lin, gate_proj := lin, down_proj := lin }]
    norm := { weight := [2, 3], bias := none }
    lm_head := lin }

/-- Concrete externals used to witness the random-orthogonal-matrix claim:
the QR factor q is the identity and r has diagonal (1, -1). -/
def orthoWitnessExt : OrthoExternals 2 :=
  { qr_q := 1
    qr_r := !![1, 0; 0, -1]
    hadamardMat := 1
    householderFromList := fun _ => 1
    householderAt := fun _ => 1
    randIdx := 0
    indices := none }

/-- The matrix the random mode produces from the witness externals. -/
def orthoWitnessQ : Matrix (Fin 2) (Fin 2) ℚ :=
  random_orthogonal_matrix orthoWitnessExt.qr_q orthoWitnessExt.qr_r

/-- Concrete kwargs used to witness the bits-16 claim: rotation disabled,
16 bits, token-wise group size. -/
def qkWitnessKwargs : QKKwargs :=
  { disable_qk_rotation := true, k_bits := 16, k_groupsize := -1,
    k_sym := true, k_clip := 1 }

/-- The wrapper state init produces from a 1-head hidden-size-1 config and
the 16-bit witness kwargs. -/
def qkWitnessWrapper : QKRotationWrapper :=
  { config := { num_attention_heads := 1, hidden_size := 1 }
    head_dim := 1
    func_kept := true
    k_quantizer := { bits := 16, groupsize := -1, sym := true, clip := 1 }
    k_bits := 16
    disable_qk_rotation := true
    k_groupsize := -1
    k_sym := true
    k_clip := 1 }

/-- Concrete kwargs used to witness the group-size claim: 8 bits so that the
quantization path runs, token-wise group size. -/
def qkWitnessKwargs8 : QKKwargs :=
  { disable_qk_rotation := true, k_bits := 8, k_groupsize := -1,
    k_sym := true, k_clip := 1 }

/-- The wrapper state init produces from the 8-bit witness kwargs. -/
def qkWitnessWrapper8 : QKRotationWrapper :=
  { config := { num_attention_heads := 1, hidden_size := 1 }
    head_dim := 1
    func_kept := true
    k_quantizer := { bits := 8, groupsize := -1, sym := true, clip := 1 }
    k_bits := 8
    disable_qk_rotation := true
    k_groupsize := -1
    k_sym := true
    k_clip := 1 }

/-- A concrete (1, 1, 1, 1)-shaped tensor for the wrapper witnesses. -/
def qkWitnessTensor : Tensor := { shape := [1, 1, 1, 1], data := [5] }

/-- What the spec promises about the shape of the key tensor the wrapper
returns: the forward call succeeds and the key comes back with shape
(batch, heads, sequence, head_dim). -/
def C5Post (w : QKRotationWrapper) (hadamard quantize : Tensor → Tensor)
    (q k : Tensor) (b nh s : ℕ) : Prop :=
  ∃ q2 k2, w.forward hadamard quantize q k = some (q2, k2) ∧
    k2.shape = [b, nh, s, w.head_dim]

/-- What the spec promises capture returns on a Llama layer for a batch of N
sequences: success, input keys exactly k_proj, o_proj, gate_proj, down_proj,
output keys exactly v_proj, and every captured tensor with leading dimension
N. -/
def C7Post (layerRun : Tensor → LayerTrace) (layer_input : Tensor) (N : ℕ) : Prop :=
  ∃ rec2, capture_layer_data .llama layerRun layer_input = .ok rec2 ∧
    rec2.input.map Prod.fst = ["k_proj", "o_proj", "gate_proj", "down_proj"] ∧
    rec2.output.map Prod.fst = ["v_proj"] ∧
    (∀ nm t2, (nm, t2) ∈ rec2.input → t2.shape.headD 0 = N) ∧
    (∀ nm t2, (nm, t2) ∈ rec2.output → t2.shape.headD 0 = N)

/-- A concrete two-sequence input batch for the capture witness. -/
def captureWitnessInput : Tensor := { shape := [2, 2], data := [1, 2, 3, 4] }

/-- A concrete constant layer behavior for the capture witness: every hooked
sublayer sees a (1, 2)-shaped tensor on every forward pass. -/
def captureWitnessRun : Tensor → LayerTrace := fun _ =>
  { kIn := { shape := [1, 2], data := [0, 0] }
    oIn := { shape := [1, 2], data := [0, 0] }
    gateIn := { shape := [1, 2], data := [0, 0] }
    downIn := { shape := [1, 2], data := [0, 0] }
    vOut := { shape := [1, 2], data := [0, 0] } }

/-
  Theorems. Every claim theorem is named claim_<id>, with counterexample and
  witness theorems named accordingly.
-/

/-- The weight produced by fuse_ln_linear_one is the column-scaled weight,
whether or not the norm has a bias. -/
theorem fuse_ln_linear_one_weight (ln : NormModule) (lin : LinearModule) :
    (fuse_ln_linear_one ln lin).weight = scaleCols lin.weight ln.weight := by
  unfold fuse_ln_linear_one
  cases ln.bias <;> rfl

/-- Every entry of ones_like is 1. -/
theorem mem_ones_like (v : Vec) (x : ℚ) (hx : x ∈ ones_like v) : x = 1 := by
  unfold ones_like at hx
  obtain ⟨y, _, rfl⟩ := List.mem_map.mp hx
  rfl

/-- C10: model_type_extractor and get_model_type are equivalent: they return
the same architecture tag on every model, and they fail with
UnsupportedModel exactly for instances outside the three supported
classes. -/
theorem claim_C10 :
    ∀ m : PyModel, model_type_extractor m = get_model_type m ∧
      (model_type_extractor m = .error .unsupportedModel ↔
        (m.isLlama = false ∧ m.isMistral = false ∧ m.isQwen = false)) := by
  intro m
  refine ⟨rfl, ?_⟩
  unfold model_type_extractor
  by_cases h1 : m.isLlama <;> by_cases h2 : m.isMistral <;> by_cases h3 : m.isQwen <;>
    simp [h1, h2, h3]

/-- C8: a second register_online_rotation on a module that already holds a
rotation, and a second add_qk_rotation_wrapper_after_function_call_in_forward
for the same function name on an already instrumented module, each fail with
AlreadyConfigured once the first call succeeded. -/
theorem claim_C8 :
    (∀ (m n : ℕ) (module : TorchModule m n) (Q Q2 : Matrix (Fin n) (Fin n) ℚ)
        (module2 : TorchModule m n),
      register_online_rotation module Q = .ok module2 →
      register_online_rotation module2 Q2 = .error .alreadyConfigured) ∧
    (∀ (am : AttrModule) (fname : String) (am2 : AttrModule),
      add_qk_rotation_wrapper_after_function_call_in_forward am fname = .ok am2 →
      add_qk_rotation_wrapper_after_function_call_in_forward am2 fname =
        .error .alreadyConfigured) := by
  constructor
  · intro m n module Q Q2 module2 h
    unfold register_online_rotation at h ⊢
    by_cases h0 : module.Q.isSome
    · simp [h0] at h
    · simp only [h0, Bool.false_eq_true, if_false, Except.ok.injEq] at h
      subst h
      simp
  · intro am fname am2 h
    unfold add_qk_rotation_wrapper_after_function_call_in_forward at h ⊢
    by_cases h0 : (fname ++ "_qk_rotation_wrapper") ∈ am.attrs
    · simp [h0] at h
    · simp only [h0, if_false, Except.ok.injEq] at h
      subst h
      simp

/-- The first call of register_online_rotation succeeds on a fresh module and
the second fails; likewise for the QK wrapper installation (witness for
C8). -/
theorem claim_C8_witness :
    register_online_rotation
        ({ weight := 0, Q := none, rotate_handle := false } : TorchModule 1 1) 1 =
      .ok { weight := 0, Q := some (1 : Matrix (Fin 1) (Fin 1) ℚ)ᵀ, rotate_handle := true } ∧
    register_online_rotation
        ({ weight := 0, Q := some (1 : Matrix (Fin 1) (Fin 1) ℚ)ᵀ,
           rotate_handle := true } : TorchModule 1 1) 1 =
      .error .alreadyConfigured ∧
    add_qk_rotation_wrapper_after_function_call_in_forward ⟨[]⟩ "apply_rotary_pos_emb" =
      .ok ⟨["apply_rotary_pos_emb_qk_rotation_wrapper"]⟩ ∧
    add_qk_rotation_wrapper_after_function_call_in_forward
        ⟨["apply_rotary_pos_emb_qk_rotation_wrapper"]⟩ "apply_rotary_pos_emb" =
      .error .alreadyConfigured :=
  ⟨rfl,
   claim_C8.1 1 1 { weight := 0, Q := none, rotate_handle := false } 1 1 _ rfl,
   rfl,
   claim_C8.2 ⟨[]⟩ "apply_rotary_pos_emb" _ rfl⟩

mutual

/-- replace_modules computes the same result as the specification-level
substitution, on every module. -/
theorem replace_modules_eq_spec (factory : PyModule → Option ℕ → PyModule)
    (rl : Bool) : (m : PyModule) →
    replace_modules factory rl m = replaceModulesSpec factory rl m
  | .mk b cs => by
      rw [replace_modules, replaceModulesSpec,
        replaceChildrenList_eq_spec factory rl cs]

/-- The children loop of replace_modules computes the same result as the
specification-level children loop. -/
theorem replaceChildrenList_eq_spec (factory : PyModule → Option ℕ → PyModule)
    (rl : Bool) : (cs : List (String × PyModule)) →
    replaceChildrenList factory rl cs = replaceChildrenListSpec factory rl cs
  | [] => rfl
  | (name, m) :: rest => by
      rw [replaceChildrenList, replaceChildrenListSpec,
        replaceChildrenList_eq_spec factory rl rest]
      by_cases hm : m.matchesType
      · simp [hm]
      · by_cases hc : m.children.length > 0
        · simp [hm, hc, replace_modules_eq_spec factory rl m]
        · obtain ⟨b, cs⟩ := m
          simp only [PyModule.children] at hc
          have hnil : cs = [] := by
            cases cs with
            | nil => rfl
            | cons c cs2 => simp at hc
          subst hnil
          simp [hm, hc, PyModule.children, replaceModulesSpec, replaceChildrenListSpec]

end

/-- C6: replace_modules agrees everywhere with the transparent substitution
that replaces every matching child exactly once by the factory's result
(the factory receiving the integer parsed from the attribute name exactly
when replace_layers is set), never descends into a matched child, and
recurses into every other child. -/
theorem claim_C6 :
    ∀ (factory : PyModule → Option ℕ → PyModule) (rl : Bool) (root : PyModule),
      replace_modules factory rl root = replaceModulesSpec factory rl root :=
  fun factory rl root => replace_modules_eq_spec factory rl root

/-- C2: on every model of a supported family, fuse_layer_norms succeeds and
afterwards every layer's post-attention-norm scale has been folded into
up_proj and gate_proj, its pre-attention-norm scale into q_proj, k_proj and
v_proj, the final norm's scale into the head, and every fused normalization
module's scale vector is all-ones. -/
theorem claim_C2 (m : PyModel) (t : ModelType)
    (h : get_model_type m = .ok t) :
    ∃ m2, fuse_layer_norms m = .ok m2 ∧ C2Post m m2 := by
  refine ⟨{ m with
              layers := m.layers.map fuse_layer_norms_layer
              lm_head := fuse_ln_linear_one m.norm m.lm_head
              norm := { m.norm with weight := ones_like m.norm.weight } }, ?_, ?_⟩
  · unfold fuse_layer_norms
    rw [h]
    rfl
  · refine ⟨by simp, ?_, fuse_ln_linear_one_weight _ _, ?_⟩
    · intro i hi hi2
      simp only [List.get_eq_getElem, List.getElem_map]
      unfold foldedLayer fuse_layer_norms_layer
      refine ⟨fuse_ln_linear_one_weight _ _, fuse_ln_linear_one_weight _ _,
        fuse_ln_linear_one_weight _ _, fuse_ln_linear_one_weight _ _,
        fuse_ln_linear_one_weight _ _, ?_, ?_⟩
      · exact fun x hx => mem_ones_like _ x hx
      · exact fun x hx => mem_ones_like _ x hx
    · exact fun x hx => mem_ones_like _ x hx

/-- The fusion claim holds on the concrete one-layer witness model
(witness for C2). -/
theorem claim_C2_witness :
    get_model_type fuseWitnessModel = .ok .llama ∧
    ∃ m2, fuse_layer_norms fuseWitnessModel = .ok m2 ∧ C2Post fuseWitnessModel m2 :=
  ⟨rfl, claim_C2 fuseWitnessModel .llama rfl⟩

/-- C1 as literally stated is false: after register_online_rotation stores
the transposed rotation, the pre-forward callback maps x to x times Q (the
bias-free linear map whose weight is the stored buffer), not to x times the
transpose of Q; the two differ already for a 2 by 2 upper-triangular Q. -/
theorem claim_C1_counterexample :
    register_online_rotation
        ({ weight := 0, Q := none, rotate_handle := false } : TorchModule 1 2)
        !![1, 2; 0, 1] =
      .ok { weight := 0, Q := some (!![(1 : ℚ), 2; 0, 1])ᵀ, rotate_handle := true } ∧
    online_rotate
        ({ weight := 0, Q := some (!![(1 : ℚ), 2; 0, 1])ᵀ,
           rotate_handle := true } : TorchModule 1 2)
        (!![(1 : ℚ), 0], ([] : List ℕ)) ≠
      some (!![(1 : ℚ), 0] * (!![(1 : ℚ), 2; 0, 1])ᵀ, ([] : List ℕ)) := by
  refine ⟨rfl, ?_⟩
  intro hcontra
  unfold online_rotate F_linear at hcontra
  have h1 := congrArg Prod.fst (Option.some.inj hcontra)
  simp only [Matrix.transpose_transpose] at h1
  have h2 : (!![(1 : ℚ), 0] * !![(1 : ℚ), 2; 0, 1]) 0 1 ≠
      (!![(1 : ℚ), 0] * (!![(1 : ℚ), 2; 0, 1])ᵀ) 0 1 := by
    simp [Matrix.mul_apply, Fin.sum_univ_two, Matrix.transpose_apply, Matrix.vecHead,
      Matrix.vecTail]
  exact h2 (congrFun (congrFun h1 0) 1)

/-- C1 (amended): register_online_rotation stores the transpose of Q as the
module's buffer (cast to the weight's dtype/device) and records the
pre-forward hook, and the installed callback replaces the first positional
input x by x times Q — the bias-free linear map whose weight is the stored
buffer, the transpose of Q — while returning every other positional input
unchanged. -/
theorem claim_C1_amended {mo n b : ℕ} {β : Type} (module : TorchModule mo n)
    (Q : Matrix (Fin n) (Fin n) ℚ) (module2 : TorchModule mo n)
    (h : register_online_rotation module Q = .ok module2)
    (x : Matrix (Fin b) (Fin n) ℚ) (rest : List β) :
    module2.Q = some Qᵀ ∧ module2.rotate_handle = true ∧
    online_rotate module2 (x, rest) = some (x * Q, rest) := by
  unfold register_online_rotation at h
  by_cases h0 : module.Q.isSome
  · simp [h0] at h
  · simp only [h0, Bool.false_eq_true, if_false, Except.ok.injEq] at h
    subst h
    refine ⟨rfl, rfl, ?_⟩
    unfold online_rotate F_linear
    simp [Matrix.transpose_transpose]

/-- The amended online-rotation claim holds at a concrete module, rotation
and input (witness for C1). -/
theorem claim_C1_witness :
    register_online_rotation
        ({ weight := 0, Q := none, rotate_handle := false } : TorchModule 1 2)
        !![1, 2; 0, 1] =
      .ok { weight := 0, Q := some (!![(1 : ℚ), 2; 0, 1])ᵀ, rotate_handle := true } ∧
    online_rotate
        ({ weight := 0, Q := some (!![(1 : ℚ), 2; 0, 1])ᵀ,
           rotate_handle := true } : TorchModule 1 2)
        (!![(1 : ℚ), 0], ([] : List ℕ)) =
      some (!![(1 : ℚ), 0] * !![(1 : ℚ), 2; 0, 1], ([] : List ℕ)) :=
  ⟨rfl,
   (claim_C1_amended { weight := 0, Q := none, rotate_handle := false }
      !![1, 2; 0, 1]
      { weight := 0, Q := some (!![(1 : ℚ), 2; 0, 1])ᵀ, rotate_handle := true }
      rfl !![(1 : ℚ), 0] ([] : List ℕ)).2.2⟩

/-- The square of torch.sign of a nonzero rational is 1. -/
theorem torchSign_mul_self (x : ℚ) (hx : x ≠ 0) : torchSign x * torchSign x = 1 := by
  unfold torchSign
  rcases lt_trichotomy 0 x with h | h | h
  · simp [h]
  · exact absurd h.symm hx
  · simp [h, not_lt.mpr h.le, hx]

/-- C3: the matrix returned by get_orthogonal_matrix in "random" mode —
the external QR factor q with every column's sign flipped by the sign of
the corresponding diagonal entry of r — satisfies Qᵀ·Q = identity, given
the QR contract (orthonormal q, nonzero diagonal of r). Floating-point
rounding is modelled away by exact arithmetic. -/
theorem claim_C3 {n : ℕ} (ext : OrthoExternals n) (Q : Matrix (Fin n) (Fin n) ℚ)
    (h : get_orthogonal_matrix "random" ext = .ok Q)
    (horth : ext.qr_qᵀ * ext.qr_q = 1)
    (hdiag : ∀ j, ext.qr_r j j ≠ 0) :
    Qᵀ * Q = 1 := by
  have h2 : random_orthogonal_matrix ext.qr_q ext.qr_r = Q := by
    unfold get_orthogonal_matrix at h
    simp at h
    exact h
  have hQ : Q = ext.qr_q * Matrix.diagonal (fun j => torchSign (ext.qr_r j j)) := by
    rw [← h2]
    ext i j
    simp [random_orthogonal_matrix, Matrix.mul_diagonal]
  rw [hQ, Matrix.transpose_mul, Matrix.diagonal_transpose, Matrix.mul_assoc,
    ← Matrix.mul_assoc ext.qr_qᵀ, horth, Matrix.one_mul,
    Matrix.diagonal_mul_diagonal, ← Matrix.diagonal_one]
  exact congrArg Matrix.diagonal (funext fun j => torchSign_mul_self _ (hdiag j))

/-- The random-mode orthogonality claim holds for the concrete witness
externals (witness for C3). -/
theorem claim_C3_witness :
    get_orthogonal_matrix "random" orthoWitnessExt = .ok orthoWitnessQ ∧
    orthoWitnessQᵀ * orthoWitnessQ = 1 :=
  ⟨rfl,
   claim_C3 orthoWitnessExt orthoWitnessQ rfl
     (by simp [orthoWitnessExt])
     (by intro j; fin_cases j <;> norm_num [orthoWitnessExt])⟩

/-- For indices below 1000, the {:03d} formatter produces exactly the three
decimal digits (hundreds, tens, units). -/
theorem format03_eq_threeDigits : ∀ n < 1000, format03 n = threeDigits n := by decide

/-- C9 as literally stated is false: the artifact path carries a ".pt"
extension, so it is not exactly save_path/layer_io/<3-digit index>. -/
theorem claim_C9_counterexample :
    get_layer_io_save_path { save_path := "out", layer_idx := 3 } ≠
      "out" ++ "/layer_io/" ++ "003" ∧
    get_layer_io_save_path { save_path := "out", layer_idx := 3 } =
      "out/layer_io/003.pt" :=
  ⟨by decide, by decide⟩

/-- C9 (amended): for args whose save_path is nonempty and has no trailing
separator, get_layer_io_save_path returns exactly
save_path/layer_io/<layer index, 3-digit zero-padded>.pt; the side
conditions on the joined prefix and on the formatted component are the
posixpath.join non-absolute/non-trailing cases, true of such inputs. -/
theorem claim_C9_amended (args : SaveArgs)
    (h1 : strEndsWith args.save_path "/" = false)
    (h2 : args.save_path ≠ "")
    (h3 : strEndsWith (args.save_path ++ "/" ++ "layer_io") "/" = false)
    (h4 : args.save_path ++ "/" ++ "layer_io" ≠ "")
    (h5 : args.layer_idx < 1000)
    (h6 : strStartsWith (format03 args.layer_idx ++ ".pt") "/" = false) :
    get_layer_io_save_path args =
      args.save_path ++ "/layer_io/" ++ threeDigits args.layer_idx ++ ".pt" := by
  have hfmt : format03 args.layer_idx = threeDigits args.layer_idx :=
    format03_eq_threeDigits _ h5
  unfold get_layer_io_save_path ospath_join2
  have c1 : strStartsWith "layer_io" "/" = false := by decide
  rw [hfmt] at h6
  rw [hfmt]
  simp only [c1, h1, h2, h3, h4, h6, Bool.false_eq_true, if_false, or_self, or_false,
    false_or]
  refine String.ext ?_
  simp only [String.data_append, List.append_assoc]
  congr 1

/-- The amended path claim holds at the concrete args (save_path "out",
layer index 3) (witness for C9). -/
theorem claim_C9_witness :
    get_layer_io_save_path { save_path := "out", layer_idx := 3 } =
      "out" ++ "/layer_io/" ++ threeDigits 3 ++ ".pt" :=
  claim_C9_amended { save_path := "out", layer_idx := 3 }
    (by decide) (by decide) (by decide) (by decide) (by decide) (by decide)

/-- C4: when the configured key bit width is 16, the wrapper's forward never
invokes the key-quantization path (the result does not depend on the
quantizer at all) and returns the key numerically unchanged beyond the
separately controlled optional Hadamard rotation. -/
theorem claim_C4 (config : QKConfig) (kwargs : QKKwargs) (w : QKRotationWrapper)
    (hinit : QKRotationWrapper.init config kwargs = .ok w)
    (hbits : kwargs.k_bits = 16)
    (hadamard quant1 quant2 : Tensor → Tensor) (q k : Tensor) :
    w.forward hadamard quant1 q k = w.forward hadamard quant2 q k ∧
    (∀ q2 k2, w.forward hadamard quant1 q k = some (q2, k2) →
      k2 = if w.disable_qk_rotation then k else hadamard k) := by
  have hbw : w.k_bits = 16 := by
    simp only [QKRotationWrapper.init] at hinit
    split at hinit
    · simp at hinit
    · split at hinit
      · simp at hinit
      · rw [Except.ok.injEq] at hinit
        rw [← hinit]
        exact hbits
  have h16 : ((16 : ℤ) < 16) = False := by norm_num
  constructor
  · simp only [QKRotationWrapper.forward, hbw, h16, if_false]
  · intro q2 k2 hf
    simp only [QKRotationWrapper.forward, hbw, h16, if_false] at hf
    by_cases hg : q.shape.getLast? = some w.head_dim
    · rw [if_pos hg] at hf
      split at hf
      · rw [Option.some.injEq, Prod.mk.injEq] at hf
        rw [← hf.2]
        by_cases hd : w.disable_qk_rotation <;> simp [hd]
      · simp at hf
    · rw [if_neg hg] at hf
      simp at hf

/-- The bits-16 claim holds at a concrete wrapper: the forward result is the
same for two different quantizers (witness for C4). -/
theorem claim_C4_witness :
    QKRotationWrapper.init { num_attention_heads := 1, hidden_size := 1 }
        qkWitnessKwargs = .ok qkWitnessWrapper ∧
    qkWitnessWrapper.forward (fun t => t) (fun t => t) qkWitnessTensor qkWitnessTensor =
      qkWitnessWrapper.forward (fun t => t) (fun _ => Tensor.mk [] [])
        qkWitnessTensor qkWitnessTensor :=
  ⟨rfl,
   (claim_C4 { num_attention_heads := 1, hidden_size := 1 } qkWitnessKwargs
      qkWitnessWrapper rfl rfl (fun t => t) (fun t => t) (fun _ => Tensor.mk [] [])
      qkWitnessTensor qkWitnessTensor).1⟩

/-- transpose(1, 2) succeeds on a 4-D tensor and swaps the middle two
dimensions of its shape. -/
theorem transpose12_of_shape (t : Tensor) {a b c d : ℕ} (h : t.shape = [a, b, c, d]) :
    ∃ u, t.transpose12 = some u ∧ u.shape = [a, c, b, d] := by
  unfold Tensor.transpose12
  rw [h]
  exact ⟨_, rfl, rfl⟩

/-- reshape(-1, m) succeeds when m is a nonzero divisor of the element count
and produces shape [numel / m, m]. -/
theorem reshapeNeg1_of_shape (t : Tensor) (m : ℕ) (hm : m ≠ 0)
    (hdvd : t.shape.prod % m = 0) :
    ∃ u, t.reshapeNeg1 m = some u ∧ u.shape = [t.shape.prod / m, m] := by
  unfold Tensor.reshapeNeg1 Tensor.numel
  rw [if_pos ⟨hm, hdvd⟩]
  exact ⟨_, rfl, rfl⟩

/-- reshape to a fully specified shape succeeds when the element counts
agree. -/
theorem reshape_of_shape (t : Tensor) (s : List ℕ) (h : s.prod = t.shape.prod) :
    ∃ u, t.reshape s = some u ∧ u.shape = s := by
  unfold Tensor.reshape Tensor.numel
  rw [if_pos h]
  exact ⟨_, rfl, rfl⟩

/-- C5: for every accepted caller-supplied key group size, the wrapper's
internal quantizer is configured with group size -1, and the forward pass —
through either the token-wise or the head-wise reshape path — returns a key
tensor of shape (batch, heads, sequence, head_dim), given the external
contracts that the Hadamard kernel and the quantizer preserve shapes. -/
theorem claim_C5 (config : QKConfig) (kwargs : QKKwargs) (w : QKRotationWrapper)
    (hinit : QKRotationWrapper.init config kwargs = .ok w)
    (hadamard quantize : Tensor → Tensor)
    (hhad : ∀ t, (hadamard t).shape = t.shape)
    (hqu : ∀ t, (quantize t).shape = t.shape)
    (q k : Tensor) (b nh s : ℕ)
    (hk : k.shape = [b, nh, s, w.head_dim])
    (hq : q.shape.getLast? = some w.head_dim)
    (hd : 0 < w.head_dim) (hnh : 0 < nh)
    (hhid : w.config.hidden_size = nh * w.head_dim) :
    w.k_quantizer.groupsize = -1 ∧ C5Post w hadamard quantize q k b nh s := by
  have hquant : w.k_quantizer.groupsize = -1 := by
    simp only [QKRotationWrapper.init] at hinit
    split at hinit
    · simp at hinit
    · split at hinit
      · simp at hinit
      · rw [Except.ok.injEq] at hinit
        rw [← hinit]
  refine ⟨hquant, ?_⟩
  unfold C5Post
  have hk1 : (if ¬w.disable_qk_rotation then hadamard k else k).shape =
      [b, nh, s, w.head_dim] := by
    by_cases hdis : w.disable_qk_rotation <;> simp [hdis, hhad, hk]
  simp only [QKRotationWrapper.forward]
  rw [if_pos hq, hk1]
  dsimp only
  have hm0 : nh * w.head_dim ≠ 0 := Nat.mul_ne_zero hnh.ne' hd.ne'
  by_cases hb : w.k_bits < 16
  · rw [if_pos hb]
    by_cases hgs : w.k_groupsize = -1
    · rw [if_pos hgs]
      obtain ⟨kt, hktEq, hktSh⟩ :=
        transpose12_of_shape (if ¬w.disable_qk_rotation then hadamard k else k) hk1
      have hktProd : kt.shape.prod = b * s * (nh * w.head_dim) := by
        rw [hktSh]
        simp [List.prod_cons]
        ring
      have hdvd : kt.shape.prod % w.config.hidden_size = 0 := by
        rw [hhid, hktProd]
        exact Nat.mul_mod_left _ _
      obtain ⟨tw, htwEq, htwSh⟩ :=
        reshapeNeg1_of_shape kt w.config.hidden_size (by rw [hhid]; exact hm0) hdvd
      have hdiv : kt.shape.prod / w.config.hidden_size = b * s := by
        rw [hhid, hktProd]
        exact Nat.mul_div_cancel _ (Nat.pos_of_ne_zero hm0)
      have hprod2 : ([b, s, nh, w.head_dim] : List ℕ).prod = (quantize tw).shape.prod := by
        rw [hqu, htwSh, hdiv, hhid]
        simp [List.prod_cons]
        ring
      obtain ⟨kr, hkrEq, hkrSh⟩ := reshape_of_shape (quantize tw) [b, s, nh, w.head_dim] hprod2
      obtain ⟨k2, hk2Eq, hk2Sh⟩ := transpose12_of_shape kr hkrSh
      rw [hktEq, Option.some_bind, htwEq, Option.some_bind, hkrEq, Option.some_bind,
        hk2Eq, Option.map_some']
      exact ⟨_, _, rfl, hk2Sh⟩
    · rw [if_neg hgs]
      have hdvd : (if ¬w.disable_qk_rotation then hadamard k else k).shape.prod %
          w.head_dim = 0 := by
        rw [hk1]
        have : ([b, nh, s, w.head_dim] : List ℕ).prod = b * nh * s * w.head_dim := by
          simp [List.prod_cons]
          ring
        rw [this]
        exact Nat.mul_mod_left _ _
      obtain ⟨ph, hphEq, hphSh⟩ :=
        reshapeNeg1_of_shape (if ¬w.disable_qk_rotation then hadamard k else k)
          w.head_dim hd.ne' hdvd
      have hprod2 : ([b, nh, s, w.head_dim] : List ℕ).prod = (quantize ph).shape.prod := by
        rw [hqu, hphSh, hk1]
        have h1 : ([b, nh, s, w.head_dim] : List ℕ).prod = b * nh * s * w.head_dim := by
          simp [List.prod_cons]
          ring
        rw [h1, Nat.mul_div_cancel _ hd]
        simp [List.prod_cons]
      obtain ⟨k2, hk2Eq, hk2Sh⟩ := reshape_of_shape (quantize ph) [b, nh, s, w.head_dim] hprod2
      rw [hphEq, Option.some_bind, hk2Eq, Option.map_some']
      exact ⟨_, _, rfl, hk2Sh⟩
  · rw [if_neg hb]
    exact ⟨_, _, rfl, hk1⟩

/-- The group-size claim holds at a concrete 8-bit token-wise wrapper
(witness for C5). -/
theorem claim_C5_witness :
    QKRotationWrapper.init { num_attention_heads := 1, hidden_size := 1 }
        qkWitnessKwargs8 = .ok qkWitnessWrapper8 ∧
    qkWitnessWrapper8.k_quantizer.groupsize = -1 ∧
    C5Post qkWitnessWrapper8 (fun t => t) (fun t => t)
      qkWitnessTensor qkWitnessTensor 1 1 1 :=
  ⟨rfl,
   claim_C5 { num_attention_heads := 1, hidden_size := 1 } qkWitnessKwargs8
     qkWitnessWrapper8 rfl (fun t => t) (fun t => t) (fun _ => rfl) (fun _ => rfl)
     qkWitnessTensor qkWitnessTensor 1 1 1 rfl rfl (by decide) (by decide) rfl⟩

/-- torch.cat along dimension 0 of a nonempty list of tensors that all have
leading dimension 1 and a common trailing shape succeeds and returns leading
dimension equal to the list length. -/
theorem catDim0_of_ones (ts : List Tensor) (tail : List ℕ)
    (h : ∀ t ∈ ts, t.shape = 1 :: tail) (hne : ts ≠ []) :
    ∃ c, catDim0 ts = some c ∧ c.shape = ts.length :: tail := by
  cases ts with
  | nil => exact absurd rfl hne
  | cons t ts2 =>
      have ht := h t (List.mem_cons_self t ts2)
      unfold catDim0
      dsimp only
      rw [ht]
      dsimp only
      have hall : (ts2.all fun u => u.shape.drop 1 = tail && u.shape ≠ []) = true := by
        rw [List.all_eq_true]
        intro u hu
        have h2 := h u (List.mem_cons_of_mem t hu)
        simp [h2]
      rw [if_pos hall]
      refine ⟨_, rfl, ?_⟩
      dsimp only
      have hmap : ts2.map (fun u => u.shape.headD 0) = ts2.map (fun _ => 1) := by
        apply List.map_congr_left
        intro u hu
        rw [h u (List.mem_cons_of_mem t hu)]
        rfl
      have hsum : (ts2.map (fun _ => (1 : ℕ))).sum = ts2.length := by
        rw [List.map_const']
        simp
      rw [hmap, hsum, List.length_cons, Nat.add_comm]

/-- C7: on the Llama family, capture returns exactly the input keys k_proj,
o_proj, gate_proj, down_proj and the output key v_proj, each captured tensor
having leading dimension N (the batch size); on any other family it fails
with UnsupportedModel. The hypotheses are the external decoder-layer
contract: each hooked sublayer fires once per forward with a
batch-dimension-1 tensor of a fixed trailing shape. -/
theorem claim_C7 (layerRun : Tensor → LayerTrace) (layer_input : Tensor)
    (N : ℕ) (rest tK tO tG tD tV : List ℕ)
    (hshape : layer_input.shape = N :: rest)
    (hN : 0 < N)
    (htr : ∀ i, i < N →
      (layerRun (layer_input.slice0 i)).kIn.shape = 1 :: tK ∧
      (layerRun (layer_input.slice0 i)).oIn.shape = 1 :: tO ∧
      (layerRun (layer_input.slice0 i)).gateIn.shape = 1 :: tG ∧
      (layerRun (layer_input.slice0 i)).downIn.shape = 1 :: tD ∧
      (layerRun (layer_input.slice0 i)).vOut.shape = 1 :: tV) :
    C7Post layerRun layer_input N ∧
    (∀ mt, mt ≠ ModelType.llama →
      capture_layer_data mt layerRun layer_input = .error .unsupportedModel) := by
  constructor
  · unfold C7Post
    simp only [capture_layer_data]
    rw [hshape]
    simp only [List.headD_cons]
    have hmem : ∀ (f : LayerTrace → Tensor) (tl : List ℕ),
        (∀ i, i < N → (f (layerRun (layer_input.slice0 i))).shape = 1 :: tl) →
        ∃ c, catDim0 (((List.range N).map fun i => layerRun (layer_input.slice0 i)).map f) =
            some c ∧ c.shape = N :: tl := by
      intro f tl hf
      have h1 : ∀ t2 ∈ ((List.range N).map fun i => layerRun (layer_input.slice0 i)).map f,
          t2.shape = 1 :: tl := by
        intro t2 ht2
        rw [List.mem_map] at ht2
        obtain ⟨tr, htr2, rfl⟩ := ht2
        rw [List.mem_map] at htr2
        obtain ⟨i, hi, rfl⟩ := htr2
        rw [List.mem_range] at hi
        exact hf i hi
      have h2 : ((List.range N).map fun i => layerRun (layer_input.slice0 i)).map f ≠ [] := by
        apply List.ne_nil_of_length_pos
        simpa using hN
      obtain ⟨c, hc, hcs⟩ := catDim0_of_ones _ tl h1 h2
      refine ⟨c, hc, ?_⟩
      rw [hcs]
      congr 1
      simp
    obtain ⟨ck, hck, hcks⟩ := hmem LayerTrace.kIn tK (fun i hi => (htr i hi).1)
    obtain ⟨co, hco, hcos⟩ := hmem LayerTrace.oIn tO (fun i hi => (htr i hi).2.1)
    obtain ⟨cg, hcg, hcgs⟩ := hmem LayerTrace.gateIn tG (fun i hi => (htr i hi).2.2.1)
    obtain ⟨cd, hcd, hcds⟩ := hmem LayerTrace.downIn tD (fun i hi => (htr i hi).2.2.2.1)
    obtain ⟨cv, hcv, hcvs⟩ := hmem LayerTrace.vOut tV (fun i hi => (htr i hi).2.2.2.2)
    rw [hck, hco, hcg, hcd, hcv]
    refine ⟨⟨[("k_proj", ck), ("o_proj", co), ("gate_proj", cg), ("down_proj", cd)],
      [("v_proj", cv)]⟩, rfl, rfl, rfl, ?_, ?_⟩
    · intro nm t2 hmem2
      simp only [List.mem_cons, List.not_mem_nil, or_false, Prod.mk.injEq] at hmem2
      rcases hmem2 with ⟨-, rfl⟩ | ⟨-, rfl⟩ | ⟨-, rfl⟩ | ⟨-, rfl⟩
      · rw [hcks]; rfl
      · rw [hcos]; rfl
      · rw [hcgs]; rfl
      · rw [hcds]; rfl
    · intro nm t2 hmem2
      simp only [List.mem_cons, List.not_mem_nil, or_false, Prod.mk.injEq] at hmem2
      obtain ⟨-, rfl⟩ := hmem2
      rw [hcvs]; rfl
  · intro mt hmt
    cases mt with
    | llama => exact absurd rfl hmt
    | mistral => rfl
    | qwen => rfl

/-- The capture claim holds at a concrete two-sequence batch and a concrete
constant layer behavior (witness for C7). -/
theorem claim_C7_witness :
    0 < 2 ∧ C7Post captureWitnessRun captureWitnessInput 2 ∧
    (∀ mt, mt ≠ ModelType.llama →
      capture_layer_data mt captureWitnessRun captureWitnessInput =
        .error .unsupportedModel) :=
  ⟨by decide,
   (claim_C7 captureWitnessRun captureWitnessInput 2 [2] [2] [2] [2] [2] [2]
      rfl (by decide) (fun i hi => ⟨rfl, rfl, rfl, rfl, rfl⟩)).1,
   (claim_C7 captureWitnessRun captureWitnessInput 2 [2] [2] [2] [2] [2] [2]
      rfl (by decide) (fun i hi => ⟨rfl, rfl, rfl, rfl, rfl⟩)).2⟩

end DFRot
